import Mathlib

/-!
Shallow embedding of the evidence retention store (`EvidenceStore` in
`src/commands/diagnose.ts`, second document) and proofs of the frozen claims.

Modelling conventions:
* JS strings are Lean `String`s; `payload: unknown` is modelled as the opaque
  serialized value, a `String`; `type` (a union of string literals) as `String`.
* The filesystem under the store root is modelled explicitly (`FsState`):
  the `evidence/` directory as an optional list of directory entries (absent
  directory = `none`), and the `evidence/.tmp` staging directory as a list of
  file names.  A record file's JSON parse outcome is part of the entry
  (`content : Option EvidenceRecord`, `none` meaning unparsable), which
  shallowly embeds `JSON.parse`/`JSON.stringify` as an exact round trip on
  well-formed files. Missing `id`/`created_at` fields are collapsed with the
  empty string, matching the JS truthiness check `parsed.id && parsed.created_at`.
* `Date.now()` values and `mtimeMs` are `Int` milliseconds; `Date.parse` is
  embedded for the fixed-width UTC ISO-8601 format the store writes
  (`YYYY-MM-DDTHH:MM:SS.mmmZ`), returning `none` (JS `NaN`) otherwise.
* Nondeterministic inputs of a save (the generated UUID, the current time) are
  explicit parameters; induced failures (lock-acquisition timeout, rename
  failure) are an explicit `SaveFault` parameter.
-/

namespace StoryForge

/-- JS whitespace characters relevant to `String.prototype.trim` for our inputs. -/
def isWsChar (c : Char) : Bool :=
  c == ' ' || c == '\t' || c == '\n' || c == '\r'

/-- `String.prototype.trim`: drop leading and trailing whitespace. -/
def strTrim (s : String) : String :=
  ⟨((s.data.dropWhile isWsChar).reverse.dropWhile isWsChar).reverse⟩

/-- `String.prototype.toUpperCase` restricted to ASCII, as used on identifiers. -/
def strUpper (s : String) : String :=
  ⟨s.data.map Char.toUpper⟩

/-- `String.prototype.endsWith`. -/
def strEndsWith (s post : String) : Bool :=
  post.data.isSuffixOf s.data

/-- Character class of the identifier pattern `[a-zA-Z0-9_-]`. -/
def isIdChar (c : Char) : Bool :=
  ('a' ≤ c && c ≤ 'z') || ('A' ≤ c && c ≤ 'Z') || ('0' ≤ c && c ≤ '9') ||
    c == '_' || c == '-'

/-- `ID_PATTERN = /^[a-zA-Z0-9_-]{1,64}$/` (source line 114). -/
def matchesIdPattern (s : String) : Bool :=
  decide (1 ≤ s.data.length) && decide (s.data.length ≤ 64) && s.data.all isIdChar

/-- `WINDOWS_RESERVED_NAMES` (source lines 115-138). -/
def WINDOWS_RESERVED_NAMES : List String :=
  ["CON", "PRN", "AUX", "NUL",
   "COM1", "COM2", "COM3", "COM4", "COM5", "COM6", "COM7", "COM8", "COM9",
   "LPT1", "LPT2", "LPT3", "LPT4", "LPT5", "LPT6", "LPT7", "LPT8", "LPT9"]

/-- `LOCK_TIMEOUT_MS = 5_000` (source line 140). -/
def LOCK_TIMEOUT_MS : Int := 5000

/-- `LOCK_TOTAL_TIMEOUT_MS = 10_000` (source line 141). -/
def LOCK_TOTAL_TIMEOUT_MS : Int := 10000

/-- `LOCK_BACKOFFS_MS = [10, 50, 100, 200, 500]` (source line 142). -/
def LOCK_BACKOFFS_MS : List Nat := [10, 50, 100, 200, 500]

/-- `EvidenceRecord` (source lines 102-106); `filename` is `"<id>.json"`. -/
structure EvidenceRecord where
  id : String
  type : String
  payload : String
  created_at : String
  filename : String
deriving DecidableEq, Repr

/-- `EvidenceBundle` (source lines 95-100): optional id and created_at. -/
structure EvidenceBundle where
  id : Option String
  type : String
  payload : String
  created_at : Option String
deriving DecidableEq, Repr

/-- `EvidenceConfig` (config/schema.ts); the store reads the numeric fields
through `??` fallbacks, so they are modelled as `Option Nat`. -/
structure EvidenceConfig where
  enabled : Bool
  max_age_days : Option Nat
  max_bundles : Option Nat
  auto_archive : Bool
deriving DecidableEq, Repr

/-- A directory entry under `evidence/`: its name, whether it is a regular
file, whether `fs.stat` succeeds on it, its modification time, and the parse
outcome of its content (`none` = corrupt / missing `id` or `created_at`). -/
structure EvFile where
  name : String
  isFile : Bool
  statOk : Bool
  mtimeMs : Int
  content : Option EvidenceRecord
deriving DecidableEq, Repr

/-- The filesystem under the store root: the `evidence/` directory (absent =
`none`) and the names in the `evidence/.tmp` staging directory. -/
structure FsState where
  evidenceDir : Option (List EvFile)
  tmpFiles : List String
deriving DecidableEq, Repr

/-- `normalizeId` (source lines 214-227).  JS `candidate || randomUUID()`
falls back to the generated UUID when the candidate is absent or the empty
string (falsy); then trims, and applies the three checks in source order. -/
def normalizeId (candidate : Option String) (uuid : String) : Except String String :=
  let base := strTrim (match candidate with
    | some c => if c == "" then uuid else c
    | none => uuid)
  if !matchesIdPattern base then
    Except.error "Evidence ID must match the identifier pattern"
  else if base.data.contains '.' || base.data.contains ':' then
    Except.error "Evidence ID cannot contain dot or colon"
  else if WINDOWS_RESERVED_NAMES.contains (strUpper base) then
    Except.error ("Evidence ID cannot be reserved name: " ++ base)
  else
    Except.ok base

/-- `readRecord` (source lines 387-399): `none` on parse failure; a parsed
object is a record only if `parsed.id && parsed.created_at` is truthy, i.e.
both present and nonempty. -/
def readRecord (content : Option EvidenceRecord) : Option EvidenceRecord :=
  match content with
  | none => none
  | some parsed =>
    if parsed.id ≠ "" ∧ parsed.created_at ≠ "" then some parsed else none

/-- An element of the result of `scanEvidenceFiles` (interface
`EvidenceFileEntry`, source lines 108-112), with the `stat` reduced to the
modification time the pruner reads. -/
structure EvidenceFileEntry where
  path : String
  mtimeMs : Int
  record : Option EvidenceRecord
deriving DecidableEq, Repr

/-- `scanEvidenceFiles` (source lines 362-385): list the `evidence/` directory
(`.catch(() => [])` on an absent directory), keep regular files named
`*.json` whose `stat` succeeds, and attach each file's parse outcome. -/
def scanEvidenceFiles (fs : FsState) : List EvidenceFileEntry :=
  match fs.evidenceDir with
  | none => []
  | some dirEntries =>
    dirEntries.filterMap fun e =>
      if e.isFile && strEndsWith e.name ".json" && e.statOk then
        some { path := e.name, mtimeMs := e.mtimeMs, record := readRecord e.content }
      else none

/-- The comparator of `listEvidence`
(`(a, b) => b.created_at.localeCompare(a.created_at)`): `a` sorts before `b`
when `b.created_at ≤ a.created_at` in codepoint order (descending).
`localeCompare` agrees with codepoint order on the ASCII timestamps the store
writes. -/
def byCreatedAtDesc (a b : EvidenceRecord) : Prop :=
  b.created_at.data ≤ a.created_at.data

instance : DecidableRel byCreatedAtDesc := fun a b =>
  inferInstanceAs (Decidable (b.created_at.data ≤ a.created_at.data))

/-- `listEvidence` (source lines 193-200): keep the entries that parsed and
sort them by `created_at` descending.  JS `Array.prototype.sort` is stable, so
it is embedded as the (stable) insertion sort. The `cfg` parameter mirrors the
method's access to `this.config`, which `listEvidence` never reads. -/
def listEvidence (_cfg : EvidenceConfig) (fs : FsState) : List EvidenceRecord :=
  List.insertionSort byCreatedAtDesc ((scanEvidenceFiles fs).filterMap (·.record))

/-! ### `Date.parse` on the store's fixed-width ISO-8601 UTC format -/

/-- Decimal digit test. -/
def isDigitCh (c : Char) : Bool := '0' ≤ c && c ≤ '9'

/-- Value of a decimal digit character. -/
def digitVal (c : Char) : Nat := c.toNat - 48

/-- Decimal number denoted by a digit list. -/
def natOfDigits (cs : List Char) : Nat :=
  cs.foldl (fun a c => a * 10 + digitVal c) 0

/-- Gregorian leap-year rule. -/
def isLeapYear (y : Nat) : Bool :=
  (y % 4 == 0 && y % 100 != 0) || y % 400 == 0

/-- Days in a month of the proleptic Gregorian calendar. -/
def daysInMonth (y m : Nat) : Nat :=
  if m == 2 then (if isLeapYear y then 29 else 28)
  else if m == 4 || m == 6 || m == 9 || m == 11 then 30
  else 31

/-- Days from 1970-01-01 to the start of year `y` (for `y ≥ 1970`). -/
def daysBeforeYear (y : Nat) : Nat :=
  (List.range (y - 1970)).foldl
    (fun acc i => acc + (if isLeapYear (1970 + i) then 366 else 365)) 0

/-- Days from the start of year `y` to the start of month `m`. -/
def daysBeforeMonth (y m : Nat) : Nat :=
  (List.range (m - 1)).foldl (fun acc i => acc + daysInMonth y (i + 1)) 0

/-- Format and range check for `YYYY-MM-DDTHH:MM:SS.mmmZ` (years ≥ 1970). -/
def isoShapeOk (cs : List Char) : Bool :=
  cs.length == 24 &&
  cs.getD 4 ' ' == '-' && cs.getD 7 ' ' == '-' && cs.getD 10 ' ' == 'T' &&
  cs.getD 13 ' ' == ':' && cs.getD 16 ' ' == ':' && cs.getD 19 ' ' == '.' &&
  cs.getD 23 ' ' == 'Z' &&
  ([0, 1, 2, 3, 5, 6, 8, 9, 11, 12, 14, 15, 17, 18, 20, 21, 22].all fun i =>
    isDigitCh (cs.getD i ' ')) &&
  (let y := natOfDigits (cs.take 4)
   let mo := natOfDigits ((cs.drop 5).take 2)
   let d := natOfDigits ((cs.drop 8).take 2)
   let h := natOfDigits ((cs.drop 11).take 2)
   let mi := natOfDigits ((cs.drop 14).take 2)
   let sec := natOfDigits ((cs.drop 17).take 2)
   1970 ≤ y && 1 ≤ mo && mo ≤ 12 && 1 ≤ d && d ≤ daysInMonth y mo &&
     h ≤ 23 && mi ≤ 59 && sec ≤ 59)

/-- `Date.parse`, embedded for the fixed-width UTC ISO-8601 strings the store
writes; `none` models the `NaN` result on anything else. -/
def jsDateParse (s : String) : Option Int :=
  let cs := s.data
  if isoShapeOk cs then
    let y := natOfDigits (cs.take 4)
    let mo := natOfDigits ((cs.drop 5).take 2)
    let d := natOfDigits ((cs.drop 8).take 2)
    let h := natOfDigits ((cs.drop 11).take 2)
    let mi := natOfDigits ((cs.drop 14).take 2)
    let sec := natOfDigits ((cs.drop 17).take 2)
    let ms := natOfDigits ((cs.drop 20).take 3)
    some (((daysBeforeYear y + daysBeforeMonth y mo + (d - 1)) * 86400000 +
      h * 3600000 + mi * 60000 + sec * 1000 + ms : Nat) : Int)
  else none

/-! ### Pruning (`pruneOnce`, source lines 327-360) -/

/-- `(this.config.max_age_days ?? 0) * 24 * 60 * 60 * 1000` (source line 330). -/
def maxAgeMs (cfg : EvidenceConfig) : Int :=
  ((cfg.max_age_days.getD 0 : Nat) : Int) * 24 * 60 * 60 * 1000

/-- The per-entry decision of the loop in `pruneOnce` (source lines 334-349):
`none` marks the entry for deletion (unparsable, or expired by the age rule);
`some (entry, ts)` keeps it with its effective timestamp
(`Number.isNaN(createdAt) ? entry.stat.mtimeMs : createdAt`). -/
def keepEntry (cfg : EvidenceConfig) (now : Int) (e : EvidenceFileEntry) :
    Option (EvidenceFileEntry × Int) :=
  match e.record with
  | none => none
  | some r =>
    let safeTimestamp := (jsDateParse r.created_at).getD e.mtimeMs
    if maxAgeMs cfg > 0 ∧ now - safeTimestamp > maxAgeMs cfg then none
    else some (e, safeTimestamp)

/-- The comparator of the count rule (`(a, b) => b.timestamp - a.timestamp`):
descending by effective timestamp. -/
def byTimestampDesc (a b : EvidenceFileEntry × Int) : Prop := b.2 ≤ a.2

instance : DecidableRel byTimestampDesc := fun a b =>
  inferInstanceAs (Decidable (b.2 ≤ a.2))

/-- The `toDelete` set of `pruneOnce` (source lines 331-357), as a list of
paths: entries marked by the loop, then — when the survivors exceed
`max_bundles ?? Infinity` — every survivor beyond that position in the
descending (stable) sort.  `max_bundles = none` models the `Infinity`
fallback, under which the count rule never fires. -/
def pruneToDelete (cfg : EvidenceConfig) (now : Int)
    (entries : List EvidenceFileEntry) : List String :=
  let baseDeletes := entries.filterMap fun e =>
    if (keepEntry cfg now e).isNone then some e.path else none
  let kept := entries.filterMap (keepEntry cfg now)
  let countVictims :=
    match cfg.max_bundles with
    | none => []
    | some m =>
      if kept.length > m then
        ((List.insertionSort byTimestampDesc kept).drop m).map (·.1.path)
      else []
  baseDeletes ++ countVictims

/-- `pruneOnce` (source lines 327-360): scan, mark, and unlink every marked
path (each unlink is best-effort; in the model unlinking a scanned path always
succeeds and removes exactly that directory entry). -/
def pruneOnce (cfg : EvidenceConfig) (now : Int) (fs : FsState) : FsState :=
  let td := pruneToDelete cfg now (scanEvidenceFiles fs)
  { fs with
    evidenceDir := fs.evidenceDir.map (·.filter fun f => !(td.contains f.name)) }

/-! ### Saving (`saveEvidence`, source lines 160-191) -/

/-- Induced outcome of the effectful steps of one save: everything succeeds,
the lock is never acquired within the wall-clock budget, or the
`fs.rename(tmpPath, targetPath)` step fails. -/
inductive SaveFault where
  | ok
  | lockTimeout
  | renameFail
deriving DecidableEq, Repr

/-- The temp file name `` `${safeId}.${randomUUID()}.json.tmp` `` (source
line 180). -/
def tmpFileName (safeId uuid : String) : String :=
  safeId ++ "." ++ uuid ++ ".json.tmp"

/-- Effect of `fs.rename` into the `evidence/` directory: replaces the entry
with the same name if one exists (POSIX/Win32 rename overwrites), otherwise
adds the file. -/
def upsertFile (dir : List EvFile) (f : EvFile) : List EvFile :=
  if dir.any (fun g => g.name == f.name) then
    dir.map fun g => if g.name == f.name then f else g
  else dir ++ [f]

/-- First directory entry with the given name. -/
def findFile (dir : List EvFile) (name : String) : Option EvFile :=
  dir.find? (fun g => g.name == name)

/-- `saveEvidence` (source lines 160-191).  Returns the call's outcome and the
resulting filesystem.  Mirrors the source order: the `enabled` guard, id
validation, record construction (`created_at` defaulting to now), then under
the lock `writeWithRetries` to the temp path, `rename` to the target, and a
`finally` cleanup `safeUnlink(tmpPath)` that runs before any error
propagates.  `uuid` is the `randomUUID()` drawn by this save, `nowIso`/`nowMs`
the current time.  A `lockTimeout` fault aborts before any write; a
`renameFail` fault aborts after the temp write, so only the cleanup's effect
remains. -/
def saveEvidence (cfg : EvidenceConfig) (bundle : EvidenceBundle)
    (uuid nowIso : String) (nowMs : Int) (fault : SaveFault) (fs : FsState) :
    Except String Unit × FsState :=
  if !cfg.enabled then (Except.ok (), fs)
  else
    match normalizeId bundle.id uuid with
    | Except.error e => (Except.error e, fs)
    | Except.ok safeId =>
      let createdAt := bundle.created_at.getD nowIso
      let record : EvidenceRecord :=
        { id := safeId, type := bundle.type, payload := bundle.payload,
          created_at := createdAt, filename := safeId ++ ".json" }
      let tmp := tmpFileName safeId uuid
      match fault with
      | SaveFault.lockTimeout =>
        (Except.error "Failed to acquire evidence lock", fs)
      | SaveFault.renameFail =>
        let afterWrite := { fs with tmpFiles := tmp :: fs.tmpFiles }
        let afterCleanup :=
          { afterWrite with tmpFiles := afterWrite.tmpFiles.filter fun t => !(t == tmp) }
        (Except.error "rename failed", afterCleanup)
      | SaveFault.ok =>
        let afterWrite := { fs with tmpFiles := tmp :: fs.tmpFiles }
        let newFile : EvFile :=
          { name := record.filename, isFile := true, statOk := true,
            mtimeMs := nowMs, content := some record }
        (Except.ok (),
          { afterWrite with
            evidenceDir := some (upsertFile (afterWrite.evidenceDir.getD []) newFile),
            tmpFiles := afterWrite.tmpFiles.filter fun t => !(t == tmp) })

/-! ### Lock acquisition (`acquireLock`, source lines 240-278)

The loop is embedded as a trace semantics over a list of per-iteration
environment observations: what the exclusive create returned, what the two
`fs.stat` calls returned, and the `Date.now()` samples at the three points
where the code reads the clock. -/

/-- The fields of `fs.Stats` the lock logic reads. -/
structure StatInfo where
  mtimeMs : Int
  ino : Nat
  dev : Nat
deriving DecidableEq, Repr

/-- Environment observations consumed by one iteration of the acquire loop. -/
structure LockObs where
  createOk : Bool
  stat1 : Option StatInfo
  stat2 : Option StatInfo
  now1 : Int
  now2 : Int
  nowElapsed : Int
deriving DecidableEq, Repr

/-- Events of the acquire loop, in execution order. -/
inductive LockAction where
  | createAttempt (ok : Bool)
  | unlinkStale
  | sleep (ms : Nat)
  | timeoutError
  | acquired
deriving DecidableEq, Repr

/-- `Date.now() - stats.mtimeMs > LOCK_TIMEOUT_MS` (source lines 255, 261). -/
def staleAt (now : Int) (st : StatInfo) : Bool :=
  decide (now - st.mtimeMs > LOCK_TIMEOUT_MS)

/-- The stale-lock reclamation decision (source lines 254-264): first stat
non-null and stale; then the re-stat non-null, with the same inode and device,
and still stale at the second clock sample. -/
def reclaimStale (o : LockObs) : Bool :=
  match o.stat1 with
  | none => false
  | some s1 =>
    if staleAt o.now1 s1 then
      match o.stat2 with
      | none => false
      | some s2 => s2.ino == s1.ino && s2.dev == s1.dev && staleAt o.now2 s2
    else false

/-- `this.lockBackoffs[Math.min(attempt, this.lockBackoffs.length - 1)]`
(source line 273). -/
def backoffDelay (attempt : Nat) : Nat :=
  LOCK_BACKOFFS_MS.getD (min attempt (LOCK_BACKOFFS_MS.length - 1)) 0

/-- Trace of `acquireLock` (source lines 240-278) from a given `startTime` and
`attempt` counter, driven by the iteration observations.  On a successful
exclusive create the loop returns; otherwise it runs the stale-reclamation
check, fails once the elapsed wall clock exceeds `LOCK_TOTAL_TIMEOUT_MS`, and
otherwise sleeps the backoff delay and retries — note the source reaches the
sleep on every contention iteration, a stale-lock reclamation included. -/
def acquireLock (startTime : Int) (attempt : Nat) :
    List LockObs → List LockAction
  | [] => []
  | o :: rest =>
    if o.createOk then [LockAction.createAttempt true, LockAction.acquired]
    else
      let pre := LockAction.createAttempt false ::
        (if reclaimStale o then [LockAction.unlinkStale] else [])
      if o.nowElapsed - startTime > LOCK_TOTAL_TIMEOUT_MS then
        pre ++ [LockAction.timeoutError]
      else
        pre ++ (LockAction.sleep (backoffDelay attempt) ::
          acquireLock startTime (attempt + 1) rest)

/-! ### Shared sample data for witnesses and counterexamples -/

/-- A default-like configuration with evidence enabled. -/
def cfgOn : EvidenceConfig :=
  { enabled := true, max_age_days := some 90, max_bundles := some 1000,
    auto_archive := false }

/-- The same configuration with evidence disabled. -/
def cfgOff : EvidenceConfig :=
  { enabled := false, max_age_days := some 90, max_bundles := some 1000,
    auto_archive := false }

/-- An initialized store root: empty `evidence/` directory, empty `.tmp`. -/
def fsEmpty : FsState := { evidenceDir := some [], tmpFiles := [] }

/-! ### Claims -/

/-- C9: if `config.enabled` is false, `saveEvidence` returns without raising
and performs no filesystem mutation, for every bundle (an invalid identifier
included) and every induced fault — the `enabled` guard returns before
identifier validation and before any lock or write step. -/
theorem evidence_c9 (cfg : EvidenceConfig) (bundle : EvidenceBundle)
    (uuid nowIso : String) (nowMs : Int) (fault : SaveFault) (fs : FsState)
    (h : cfg.enabled = false) :
    saveEvidence cfg bundle uuid nowIso nowMs fault fs = (Except.ok (), fs) := by
  simp [saveEvidence, h]

/-- Witness for C9 at a concrete disabled configuration and a bundle whose
identifier contains a colon (invalid): the save still succeeds and leaves the
filesystem untouched. -/
theorem evidence_c9_witness :
    saveEvidence cfgOff
      { id := some "bad:name", type := "note", payload := "p", created_at := none }
      "u" "t" 0 SaveFault.ok fsEmpty = (Except.ok (), fsEmpty) :=
  evidence_c9 cfgOff
    { id := some "bad:name", type := "note", payload := "p", created_at := none }
    "u" "t" 0 SaveFault.ok fsEmpty rfl

/-- A disabled configuration with a one-day age budget. -/
def cfgAge1Off : EvidenceConfig :=
  { enabled := false, max_age_days := some 1, max_bundles := some 1000,
    auto_archive := false }

/-- A record created at 2026-01-01T00:00:00Z. -/
def recOld : EvidenceRecord :=
  { id := "old", type := "test", payload := "p",
    created_at := "2026-01-01T00:00:00.000Z", filename := "old.json" }

/-- The evidence directory holding only `recOld`. -/
def fsOldRec : FsState :=
  { evidenceDir := some
      [{ name := "old.json", isFile := true, statOk := true, mtimeMs := 0,
         content := some recOld }],
    tmpFiles := [] }

/-- C10: `listEvidence` and `pruneOnce` never consult `config.enabled` — both
are invariant under flipping `enabled` — and concretely, with `enabled` set to
false, `list` still returns the persisted record and `prune` still deletes it
under the age budget (one day, record 48 hours old at the given `now`). -/
theorem evidence_c10 :
    (∀ (cfg : EvidenceConfig) (b : Bool) (fs : FsState),
      listEvidence { cfg with enabled := b } fs = listEvidence cfg fs) ∧
    (∀ (cfg : EvidenceConfig) (b : Bool) (now : Int) (fs : FsState),
      pruneOnce { cfg with enabled := b } now fs = pruneOnce cfg now fs) ∧
    listEvidence cfgAge1Off fsOldRec = [recOld] ∧
    listEvidence cfgAge1Off (pruneOnce cfgAge1Off 1767398400000 fsOldRec) = [] :=
  ⟨fun _ _ _ => rfl, fun _ _ _ _ => rfl, by decide, by decide⟩

/-- An observation with a stale lock: the first stat shows modification time 0
while the clock reads 6000 (age 6000 ms > 5000 ms), the re-stat returns the
identical inode/device and is still stale, and the elapsed check at 6000 ms is
within the 10-second budget. -/
def lockObsStale : LockObs :=
  { createOk := false, stat1 := some { mtimeMs := 0, ino := 7, dev := 3 },
    stat2 := some { mtimeMs := 0, ino := 7, dev := 3 },
    now1 := 6000, now2 := 6000, nowElapsed := 6000 }

/-- An observation in which the exclusive create succeeds. -/
def lockObsFree : LockObs :=
  { createOk := true, stat1 := none, stat2 := none,
    now1 := 0, now2 := 0, nowElapsed := 0 }

/-- Counterexample to C2 as stated: at a contention iteration that reclaims a
stale lock (`reclaimStale` fires) the loop still sleeps the 10 ms backoff
before the next exclusive-create attempt — the trace is
`[create(fail), unlink, sleep 10, create(ok), acquired]`, with a sleep between
the reclamation and the retry, refuting "retries the exclusive create
immediately (without sleeping)" after reclaiming. -/
theorem evidence_c2_cex :
    reclaimStale lockObsStale = true ∧
    acquireLock 0 0 [lockObsStale, lockObsFree] =
      [LockAction.createAttempt false, LockAction.unlinkStale,
       LockAction.sleep 10, LockAction.createAttempt true,
       LockAction.acquired] := by
  decide

/-- C2 (amended): a stale lock is deleted only when the re-stat returns the
same inode and device as the first observation (and is still stale); and in
every contention case that does not exhaust the wall-clock budget — after a
stale-lock reclamation exactly as in any other — the loop sleeps the backoff
delay from the schedule 10, 50, 100, 200, 500 ms, capped at the last value,
before retrying the exclusive create. -/
theorem evidence_c2 :
    (∀ o : LockObs, reclaimStale o = true →
      ∃ s1 s2, o.stat1 = some s1 ∧ o.stat2 = some s2 ∧ s2.ino = s1.ino ∧
        s2.dev = s1.dev ∧ staleAt o.now1 s1 = true ∧ staleAt o.now2 s2 = true) ∧
    (∀ (startTime : Int) (attempt : Nat) (o : LockObs) (rest : List LockObs),
      o.createOk = false → o.nowElapsed - startTime ≤ LOCK_TOTAL_TIMEOUT_MS →
      acquireLock startTime attempt (o :: rest) =
        (LockAction.createAttempt false ::
          (if reclaimStale o then [LockAction.unlinkStale] else [])) ++
          LockAction.sleep (backoffDelay attempt) ::
            acquireLock startTime (attempt + 1) rest) ∧
    (backoffDelay 0 = 10 ∧ backoffDelay 1 = 50 ∧ backoffDelay 2 = 100 ∧
      backoffDelay 3 = 200 ∧ ∀ k, 4 ≤ k → backoffDelay k = 500) := by
  refine ⟨?_, ?_, rfl, rfl, rfl, rfl, ?_⟩
  · intro o h
    unfold reclaimStale at h
    split at h
    · exact absurd h (by simp)
    · rename_i s1 heq1
      split at h
      · rename_i hst
        split at h
        · exact absurd h (by simp)
        · rename_i s2 heq2
          simp only [Bool.and_eq_true, beq_iff_eq] at h
          exact ⟨s1, s2, heq1, heq2, h.1.1, h.1.2, hst, h.2⟩
      · exact absurd h (by simp)
  · intro startTime attempt o rest h1 h2
    rw [acquireLock, if_neg (by rw [h1]; exact Bool.false_ne_true),
      if_neg (not_lt.mpr h2)]
  · intro k hk
    have hmin : min k (LOCK_BACKOFFS_MS.length - 1) = 4 := by
      simp only [LOCK_BACKOFFS_MS, List.length_cons, List.length_nil]
      omega
    rw [backoffDelay, hmin]
    rfl

/-- Witness for the amended C2, instantiated at the stale-reclamation
observation: the trace of that contention iteration sleeps the attempt-0
backoff right after the reclamation, before the retry. -/
theorem evidence_c2_witness :
    acquireLock 0 0 [lockObsStale, lockObsFree] =
      (LockAction.createAttempt false ::
        (if reclaimStale lockObsStale then [LockAction.unlinkStale] else [])) ++
        LockAction.sleep (backoffDelay 0) :: acquireLock 0 1 [lockObsFree] :=
  evidence_c2.2.1 0 0 lockObsStale [lockObsFree] rfl (by decide)

/-- C1: a save that fails because the lock was not acquired within the
wall-clock budget, or because the rename of the temp file failed, surfaces an
error to the caller with the temp cleanup already done: afterwards the temp
file of that save is not in the `.tmp` staging directory (its contents are
exactly as before the save), and the `evidence/` directory is unchanged; when
the lock was never obtained the whole filesystem is unchanged.  The `hfresh`
hypothesis records that the randomly suffixed temp name of this save is fresh. -/
theorem evidence_c1 (cfg : EvidenceConfig) (bundle : EvidenceBundle)
    (uuid nowIso : String) (nowMs : Int) (fs : FsState) (sid : String)
    (hen : cfg.enabled = true)
    (hid : normalizeId bundle.id uuid = Except.ok sid)
    (hfresh : tmpFileName sid uuid ∉ fs.tmpFiles) :
    (∀ fault, fault = SaveFault.lockTimeout ∨ fault = SaveFault.renameFail →
      (saveEvidence cfg bundle uuid nowIso nowMs fault fs).1.isOk = false ∧
      (saveEvidence cfg bundle uuid nowIso nowMs fault fs).2.evidenceDir =
        fs.evidenceDir ∧
      (saveEvidence cfg bundle uuid nowIso nowMs fault fs).2.tmpFiles =
        fs.tmpFiles) ∧
    (saveEvidence cfg bundle uuid nowIso nowMs SaveFault.lockTimeout fs).2 = fs := by
  have hfilter :
      fs.tmpFiles.filter (fun t => !(t == tmpFileName sid uuid)) = fs.tmpFiles :=
    List.filter_eq_self.mpr fun t ht => by
      simp only [Bool.not_eq_true']
      exact beq_eq_false_iff_ne.mpr fun he => hfresh (he ▸ ht)
  refine ⟨?_, by simp [saveEvidence, hen, hid]⟩
  rintro fault (rfl | rfl)
  · simp [saveEvidence, hen, hid, Except.isOk, Except.toBool]
  · simp [saveEvidence, hen, hid, Except.isOk, Except.toBool, List.filter_cons, hfilter]

/-- Witness for C1: a concrete lock-timeout save leaves the filesystem
exactly as it was. -/
theorem evidence_c1_witness :
    (saveEvidence cfgOn
      { id := some "a1", type := "test", payload := "p", created_at := none }
      "u0" "t0" 0 SaveFault.lockTimeout fsEmpty).2 = fsEmpty :=
  (evidence_c1 cfgOn
    { id := some "a1", type := "test", payload := "p", created_at := none }
    "u0" "t0" 0 fsEmpty "a1" rfl rfl (by simp [fsEmpty, tmpFileName])).2

instance : IsTotal EvidenceRecord byCreatedAtDesc :=
  ⟨fun a b => le_total b.created_at.data a.created_at.data⟩

instance : IsTrans EvidenceRecord byCreatedAtDesc :=
  ⟨fun _ _ _ hab hbc => le_trans hbc hab⟩

/-- C5: `list()` is total in the model (the embedding returns a plain list, it
has no failing path): on an absent evidence directory it returns the empty
sequence, its result is sorted by `created_at` descending, and it is a
permutation of exactly the successfully parsed records of the scan — corrupt
or unparsable files are skipped, never an error. -/
theorem evidence_c5 (cfg : EvidenceConfig) (fs : FsState) :
    (fs.evidenceDir = none → listEvidence cfg fs = []) ∧
    (listEvidence cfg fs).Sorted byCreatedAtDesc ∧
    List.Perm (listEvidence cfg fs)
      ((scanEvidenceFiles fs).filterMap (·.record)) := by
  refine ⟨fun h => ?_, ?_, ?_⟩
  · rw [listEvidence, scanEvidenceFiles, h]
    rfl
  · exact List.sorted_insertionSort byCreatedAtDesc _
  · exact List.perm_insertionSort byCreatedAtDesc _

/-- Witness for C5: listing a store whose evidence directory is absent
returns the empty sequence. -/
theorem evidence_c5_witness :
    listEvidence cfgOn { evidenceDir := none, tmpFiles := [] } = [] :=
  (evidence_c5 cfgOn { evidenceDir := none, tmpFiles := [] }).1 rfl

/-- Reduction of `keepEntry` on a parsable entry. -/
theorem keepEntry_some_eq (cfg : EvidenceConfig) (now : Int)
    (e : EvidenceFileEntry) (r : EvidenceRecord) (hr : e.record = some r) :
    keepEntry cfg now e =
      if maxAgeMs cfg > 0 ∧
          now - (jsDateParse r.created_at).getD e.mtimeMs > maxAgeMs cfg then
        none
      else some (e, (jsDateParse r.created_at).getD e.mtimeMs) := by
  unfold keepEntry
  rw [hr]

/-- C4: in each prune pass, an entry whose content did not parse as a record
(`record = none`, which also covers a missing `id` or `created_at`) is
unconditionally marked for deletion; a parsable entry kept by the loop carries
the effective timestamp — the parsed `created_at` when `Date.parse` succeeds,
the file's modification time when it fails; and when `max_age_days` is
positive, a parsable entry whose effective timestamp is older than `now`
minus the age budget in milliseconds is marked for deletion. -/
theorem evidence_c4 (cfg : EvidenceConfig) (now : Int)
    (entries : List EvidenceFileEntry) (e : EvidenceFileEntry)
    (he : e ∈ entries) :
    (e.record = none → e.path ∈ pruneToDelete cfg now entries) ∧
    (∀ r p, e.record = some r → keepEntry cfg now e = some p →
      p.1 = e ∧
      (∀ t, jsDateParse r.created_at = some t → p.2 = t) ∧
      (jsDateParse r.created_at = none → p.2 = e.mtimeMs)) ∧
    (∀ r d, e.record = some r → cfg.max_age_days = some d → 0 < d →
      now - (jsDateParse r.created_at).getD e.mtimeMs > maxAgeMs cfg →
      e.path ∈ pruneToDelete cfg now entries) := by
  have base_mem : keepEntry cfg now e = none →
      e.path ∈ pruneToDelete cfg now entries := by
    intro hk
    apply List.mem_append_left
    exact List.mem_filterMap.mpr ⟨e, he, by rw [hk]; rfl⟩
  refine ⟨fun h => base_mem (by rw [keepEntry, h]), ?_, ?_⟩
  · intro r p hr hp
    rw [keepEntry_some_eq cfg now e r hr] at hp
    split at hp
    · exact absurd hp (by simp)
    · injection hp with hp
      subst hp
      exact ⟨rfl, fun t ht => by simp [ht], fun ht => by simp [ht]⟩
  · intro r d hr hd hdpos hage
    apply base_mem
    rw [keepEntry_some_eq cfg now e r hr]
    rw [if_pos]
    refine ⟨?_, hage⟩
    rw [maxAgeMs, hd]
    positivity

/-- Witness for C4: a corrupt entry (unparsable content) is marked for
deletion by the prune pass. -/
theorem evidence_c4_witness :
    "bad.json" ∈ pruneToDelete cfgOn 0
      [{ path := "bad.json", mtimeMs := 0, record := none }] :=
  (evidence_c4 cfgOn 0 [{ path := "bad.json", mtimeMs := 0, record := none }]
    { path := "bad.json", mtimeMs := 0, record := none }
    (List.mem_singleton.mpr rfl)).1 rfl

/-- Validity of an identifier, in the claim's words: matches the pattern,
contains neither `.` nor `:`, and is not (case-insensitively) a
Windows-reserved device name. -/
def validIdB (s : String) : Bool :=
  matchesIdPattern s && !(s.data.contains '.' || s.data.contains ':') &&
    !(WINDOWS_RESERVED_NAMES.contains (strUpper s))

/-- Characters of a version-4 `randomUUID()` string: lowercase hex digits and
the dash. -/
def isUuidChar (c : Char) : Bool :=
  ('0' ≤ c && c ≤ '9') || ('a' ≤ c && c ≤ 'f') || c == '-'

/-- Shape of a `randomUUID()` result: 36 characters, all hex-or-dash. -/
def uuidLike (u : String) : Prop :=
  u.data.length = 36 ∧ ∀ c ∈ u.data, isUuidChar c = true

/-- `dropWhile` is the identity when no element satisfies the predicate. -/
theorem dropWhile_eq_self_of_all (p : Char → Bool) (l : List Char)
    (h : ∀ c ∈ l, p c = false) : l.dropWhile p = l := by
  cases l with
  | nil => rfl
  | cons a as => simp [List.dropWhile_cons, h a (List.mem_cons_self a as)]

/-- Trimming is the identity on whitespace-free strings. -/
theorem strTrim_eq_self (s : String) (h : ∀ c ∈ s.data, isWsChar c = false) :
    strTrim s = s := by
  rw [strTrim, dropWhile_eq_self_of_all isWsChar s.data h,
    dropWhile_eq_self_of_all isWsChar s.data.reverse
      (fun c hc => h c (List.mem_reverse.mp hc)),
    List.reverse_reverse]

/-- UUID characters are not whitespace. -/
theorem isUuidChar_not_ws (c : Char) (h : isUuidChar c = true) :
    isWsChar c = false := by
  by_contra hw
  rw [Bool.not_eq_false, isWsChar] at hw
  simp only [Bool.or_eq_true, beq_iff_eq] at hw
  rcases hw with ((rfl | rfl) | rfl) | rfl <;> exact absurd h (by decide)

/-- UUID characters belong to the identifier character class. -/
theorem isUuidChar_isIdChar (c : Char) (h : isUuidChar c = true) :
    isIdChar c = true := by
  rw [isUuidChar] at h
  rw [isIdChar]
  simp only [Bool.or_eq_true, Bool.and_eq_true, decide_eq_true_eq,
    beq_iff_eq] at h ⊢
  rcases h with (⟨h1, h2⟩ | ⟨h1, h2⟩) | rfl
  · exact Or.inl (Or.inl (Or.inr ⟨h1, h2⟩))
  · exact Or.inl (Or.inl (Or.inl (Or.inl ⟨h1, le_trans h2 (by decide)⟩)))
  · exact Or.inr rfl

/-- Every Windows-reserved name is at most four characters long. -/
theorem reserved_names_short :
    ∀ s ∈ WINDOWS_RESERVED_NAMES, s.data.length ≤ 4 := by
  decide

/-- A UUID-shaped string is not a character of the dot/colon checks and not a
reserved name, so `normalizeId` accepts a generated id unchanged. -/
theorem normalizeId_none_uuid (u : String) (hu : uuidLike u) :
    normalizeId none u = Except.ok u := by
  obtain ⟨hlen, hch⟩ := hu
  have htrim : strTrim u = u :=
    strTrim_eq_self u fun c hc => isUuidChar_not_ws c (hch c hc)
  rw [normalizeId]
  simp only [htrim]
  rw [if_neg, if_neg, if_neg]
  · intro hres
    have hmem : strUpper u ∈ WINDOWS_RESERVED_NAMES := List.elem_iff.mp hres
    have hshort := reserved_names_short _ hmem
    have : (strUpper u).data.length = 36 := by
      rw [strUpper]
      simpa using hlen
    omega
  · intro hdc
    simp only [Bool.or_eq_true] at hdc
    rcases hdc with hd | hd <;>
      · have := hch _ (List.elem_iff.mp hd)
        exact absurd this (by decide)
  · rw [Bool.not_eq_true', Bool.not_eq_false]
    rw [matchesIdPattern]
    simp only [Bool.and_eq_true, decide_eq_true_eq]
    refine ⟨⟨by omega, by omega⟩,
      List.all_eq_true.mpr fun c hc => isUuidChar_isIdChar c (hch c hc)⟩

/-- On a nonempty candidate, `normalizeId` succeeds exactly on valid trimmed
identifiers. -/
theorem normalizeId_isOk_validIdB (c u : String) (h : c ≠ "") :
    (normalizeId (some c) u).isOk = validIdB (strTrim c) := by
  have hc : (c == "") = false := beq_eq_false_iff_ne.mpr h
  rw [normalizeId, validIdB]
  simp only [hc, Bool.false_eq_true, if_false]
  cases h1 : matchesIdPattern (strTrim c) with
  | false => simp [h1, Except.isOk, Except.toBool]
  | true =>
    cases h2 :
        ((strTrim c).data.contains '.' || (strTrim c).data.contains ':') with
    | true => simp [h2, Except.isOk, Except.toBool]
    | false =>
      cases h3 : WINDOWS_RESERVED_NAMES.contains (strUpper (strTrim c)) with
      | true => simp [h2, h3, Except.isOk, Except.toBool]
      | false => simp [h2, h3, Except.isOk, Except.toBool]

/-- A valid concrete UUID used in the C6 counterexample. -/
def uuidSample : String := "1f2e3d4c-5a6b-4c7d-8e9f-0a1b2c3d4e5f"

/-- Counterexample to C6 as stated: the empty-string candidate is empty after
trimming, yet the save does not fail with a validation error — JS `candidate
|| randomUUID()` treats the empty string as absent and generates a fresh id,
so the save succeeds. -/
theorem evidence_c6_cex :
    strTrim "" = "" ∧
    (saveEvidence cfgOn
      { id := some "", type := "note", payload := "p",
        created_at := some "2026-01-01T00:00:00.000Z" }
      uuidSample "t" 0 SaveFault.ok fsEmpty).1.isOk = true := by
  decide

/-- C6 (amended): for a nonempty candidate, the save (with no induced fault)
succeeds exactly when the trimmed candidate matches the identifier pattern,
contains neither `.` nor `:`, and is not case-insensitively a
Windows-reserved device name — so `".."`, `"COM1"` and `"bad:name"` are
rejected while `"a1_2-3"` is accepted; an empty-string candidate is treated
as absent, and an absent candidate is replaced by a fresh `randomUUID()`,
which always passes validation. -/
theorem evidence_c6 :
    (∀ (cfg : EvidenceConfig) (bundle : EvidenceBundle)
        (uuid nowIso : String) (nowMs : Int) (fs : FsState) (c : String),
      cfg.enabled = true → bundle.id = some c → c ≠ "" →
      (saveEvidence cfg bundle uuid nowIso nowMs SaveFault.ok fs).1.isOk =
        validIdB (strTrim c)) ∧
    (∀ u : String, uuidLike u → normalizeId none u = Except.ok u) ∧
    (∀ u : String, (normalizeId (some "..") u).isOk = false) ∧
    (∀ u : String, (normalizeId (some "COM1") u).isOk = false) ∧
    (∀ u : String, (normalizeId (some "bad:name") u).isOk = false) ∧
    (∀ u : String, normalizeId (some "a1_2-3") u = Except.ok "a1_2-3") := by
  refine ⟨?_, normalizeId_none_uuid, fun u => rfl, fun u => rfl, fun u => rfl,
    fun u => rfl⟩
  intro cfg bundle uuid nowIso nowMs fs c hen hbid hne
  rw [← normalizeId_isOk_validIdB c uuid hne, ← hbid]
  cases hni : normalizeId bundle.id uuid with
  | error e => simp [saveEvidence, hen, hni, Except.isOk, Except.toBool]
  | ok sid => simp [saveEvidence, hen, hni, Except.isOk, Except.toBool]

/-- Witness for the amended C6: a concrete save with the valid candidate
`"a1_2-3"` succeeds. -/
theorem evidence_c6_witness :
    (saveEvidence cfgOn
      { id := some "a1_2-3", type := "test", payload := "p",
        created_at := some "2026-01-01T00:00:00.000Z" }
      "u" "t" 0 SaveFault.ok fsEmpty).1.isOk = validIdB (strTrim "a1_2-3") :=
  evidence_c6.1 cfgOn
    { id := some "a1_2-3", type := "test", payload := "p",
      created_at := some "2026-01-01T00:00:00.000Z" }
    "u" "t" 0 fsEmpty "a1_2-3" rfl rfl (by decide)

/-- An id accepted by `normalizeId` matches the identifier pattern. -/
theorem normalizeId_ok_pattern (cand : Option String) (u s : String)
    (h : normalizeId cand u = Except.ok s) : matchesIdPattern s = true := by
  simp only [normalizeId] at h
  split at h
  · exact absurd h (by simp)
  · split at h
    · exact absurd h (by simp)
    · split at h
      · exact absurd h (by simp)
      · injection h with h
        subst h
        rename_i h1 _ _
        rwa [Bool.not_eq_true', Bool.not_eq_false] at h1

/-- An id accepted by `normalizeId` is nonempty. -/
theorem normalizeId_ok_ne_empty (cand : Option String) (u s : String)
    (h : normalizeId cand u = Except.ok s) : s ≠ "" := by
  have hp := normalizeId_ok_pattern cand u s h
  rw [matchesIdPattern] at hp
  simp only [Bool.and_eq_true, decide_eq_true_eq] at hp
  intro he
  subst he
  exact absurd hp.1.1 (by decide)

/-- Appending a suffix makes `strEndsWith` hold. -/
theorem strEndsWith_append (s post : String) :
    strEndsWith (s ++ post) post = true := by
  rw [strEndsWith]
  exact List.isSuffixOf_iff_suffix.mpr
    (show post.data <:+ s.data ++ post.data from List.suffix_append s.data post.data)

/-- C8: saving a bundle whose candidate id is valid (validation accepts it
unchanged) into an empty evidence directory and then listing yields exactly
one record, whose `id`, `type` and `payload` equal the bundle's (and whose
`created_at` is the bundle's, defaulted to now). -/
theorem evidence_c8 (cfg : EvidenceConfig) (bundle : EvidenceBundle)
    (uuid nowIso : String) (nowMs : Int) (tmps : List String) (sid : String)
    (hen : cfg.enabled = true)
    (_hbid : bundle.id = some sid)
    (hid : normalizeId bundle.id uuid = Except.ok sid)
    (hca : bundle.created_at.getD nowIso ≠ "") :
    listEvidence cfg
      (saveEvidence cfg bundle uuid nowIso nowMs SaveFault.ok
        { evidenceDir := some [], tmpFiles := tmps }).2 =
      [{ id := sid, type := bundle.type, payload := bundle.payload,
         created_at := bundle.created_at.getD nowIso,
         filename := sid ++ ".json" }] := by
  have hsid : sid ≠ "" := normalizeId_ok_ne_empty bundle.id uuid sid hid
  rw [listEvidence]
  simp only [saveEvidence, hen, hid, Bool.not_true, Bool.false_eq_true,
    if_false]
  simp only [scanEvidenceFiles, upsertFile, Option.getD_some, List.any_nil,
    Bool.false_eq_true, if_false, List.nil_append, List.filterMap_cons,
    List.filterMap_nil]
  rw [strEndsWith_append]
  simp only [Bool.and_true, Bool.true_and, Bool.and_self, if_true]
  rw [readRecord]
  rw [if_pos ⟨hsid, hca⟩]
  simp [List.insertionSort, List.orderedInsert]

/-- Witness for C8 at a concrete valid bundle. -/
theorem evidence_c8_witness :
    listEvidence cfgOn
      (saveEvidence cfgOn
        { id := some "a1", type := "test", payload := "p",
          created_at := some "2026-01-01T00:00:00.000Z" }
        "u" "t" 5 SaveFault.ok
        { evidenceDir := some [], tmpFiles := [] }).2 =
      [{ id := "a1", type := "test", payload := "p",
         created_at := "2026-01-01T00:00:00.000Z", filename := "a1.json" }] :=
  evidence_c8 cfgOn
    { id := some "a1", type := "test", payload := "p",
      created_at := some "2026-01-01T00:00:00.000Z" }
    "u" "t" 5 [] "a1" rfl rfl rfl (by decide)

/-- A save whose target name differs from a file's name leaves that file in
place (`rename` only touches its own target). -/
theorem mem_upsertFile_of_ne (dir : List EvFile) (g f : EvFile)
    (hf : f ∈ dir) (hne : f.name ≠ g.name) : f ∈ upsertFile dir g := by
  rw [upsertFile]
  split
  · exact List.mem_map.mpr ⟨f, hf, by simp [beq_eq_false_iff_ne.mpr hne]⟩
  · exact List.mem_append_left _ hf

/-- After replacing every same-named entry by `g`, the first entry named
`g.name` is `g`. -/
theorem find?_map_replace (dir : List EvFile) (g : EvFile)
    (hany : dir.any (fun x => x.name == g.name) = true) :
    (dir.map fun x => if x.name == g.name then g else x).find?
      (fun y => y.name == g.name) = some g := by
  induction dir with
  | nil => simp at hany
  | cons x xs ih =>
    rw [List.map_cons]
    by_cases hx : (x.name == g.name) = true
    · rw [if_pos hx]
      exact List.find?_cons_of_pos _ (by simp)
    · rw [if_neg hx, List.find?_cons_of_neg _ (by simpa using hx)]
      apply ih
      simpa [hx] using hany

/-- `rename` leaves the directory with `g` as the (first) entry under its
target name, whether or not the target existed. -/
theorem findFile_upsertFile_self (dir : List EvFile) (g : EvFile) :
    findFile (upsertFile dir g) g.name = some g := by
  rw [findFile, upsertFile]
  split
  · rename_i hany
    exact find?_map_replace dir g hany
  · rename_i hany
    rw [List.find?_append]
    have hnone : dir.find? (fun y => y.name == g.name) = none :=
      List.find?_eq_none.mpr fun x hx hpx =>
        hany (List.any_eq_true.mpr ⟨x, hx, hpx⟩)
    rw [hnone]
    simp [List.find?_cons_of_pos]

/-- Sample bundles sharing the id `"dup"` with different payloads. -/
def bunP1 : EvidenceBundle :=
  { id := some "dup", type := "note", payload := "p1",
    created_at := some "2026-01-01T00:00:00.000Z" }

/-- Second bundle with the same id and a different payload. -/
def bunP2 : EvidenceBundle :=
  { id := some "dup", type := "note", payload := "p2",
    created_at := some "2026-01-01T00:00:01.000Z" }

/-- The store after saving `bunP1` into an empty directory. -/
def fsDup1 : FsState := (saveEvidence cfgOn bunP1 "u1" "t" 0 SaveFault.ok fsEmpty).2

/-- The store after then saving `bunP2`, which carries the same id. -/
def fsDup2 : FsState := (saveEvidence cfgOn bunP2 "u2" "t" 1 SaveFault.ok fsDup1).2

/-- Counterexample to C7 as stated: after saving id `"dup"` with payload
`"p1"`, a second successful save supplying the same id replaces the persisted
record — the listing's only record for `"dup"` now carries payload `"p2"` —
because the rename step overwrites the existing target file; the record was
not immutable under a later same-id save. -/
theorem evidence_c7_cex :
    listEvidence cfgOn fsDup1 =
      [{ id := "dup", type := "note", payload := "p1",
         created_at := "2026-01-01T00:00:00.000Z", filename := "dup.json" }] ∧
    listEvidence cfgOn fsDup2 =
      [{ id := "dup", type := "note", payload := "p2",
         created_at := "2026-01-01T00:00:01.000Z", filename := "dup.json" }] := by
  decide

/-- C7 (amended): a persisted record is never modified by a save with a
different id — every save leaves all files other than its own target
untouched, in every outcome (success, validation error, lock timeout, rename
failure) — and deletion happens only through pruning; however a later
successful save supplying the same id atomically replaces the existing
record via the overwriting rename. -/
theorem evidence_c7 :
    (∀ (cfg : EvidenceConfig) (bundle : EvidenceBundle) (uuid nowIso : String)
        (nowMs : Int) (fault : SaveFault) (fs : FsState) (sid : String)
        (f : EvFile),
      normalizeId bundle.id uuid = Except.ok sid →
      f ∈ fs.evidenceDir.getD [] → f.name ≠ sid ++ ".json" →
      f ∈ (saveEvidence cfg bundle uuid nowIso nowMs fault fs).2.evidenceDir.getD []) ∧
    (∀ (cfg : EvidenceConfig) (bundle : EvidenceBundle) (uuid nowIso : String)
        (nowMs : Int) (fs : FsState) (sid : String),
      cfg.enabled = true →
      normalizeId bundle.id uuid = Except.ok sid →
      findFile
        ((saveEvidence cfg bundle uuid nowIso nowMs SaveFault.ok fs).2.evidenceDir.getD [])
        (sid ++ ".json") =
        some { name := sid ++ ".json", isFile := true, statOk := true,
               mtimeMs := nowMs,
               content := some
                 { id := sid, type := bundle.type, payload := bundle.payload,
                   created_at := bundle.created_at.getD nowIso,
                   filename := sid ++ ".json" } }) := by
  constructor
  · intro cfg bundle uuid nowIso nowMs fault fs sid f hid hf hne
    cases hen : cfg.enabled with
    | false => simpa [saveEvidence, hen] using hf
    | true =>
      cases fault with
      | lockTimeout => simpa [saveEvidence, hen, hid] using hf
      | renameFail => simpa [saveEvidence, hen, hid] using hf
      | ok =>
        simp only [saveEvidence, hen, hid, Bool.not_true, Bool.false_eq_true,
          if_false, Option.getD_some]
        exact mem_upsertFile_of_ne _ _ f hf hne
  · intro cfg bundle uuid nowIso nowMs fs sid hen hid
    simp only [saveEvidence, hen, hid, Bool.not_true, Bool.false_eq_true,
      if_false, Option.getD_some]
    exact findFile_upsertFile_self _ _

/-- Witness for the amended C7: a save with the distinct id `"other"` into
the store holding `"dup.json"` leaves that record in place. -/
theorem evidence_c7_witness :
    ({ name := "dup.json", isFile := true, statOk := true, mtimeMs := 0,
       content := some
         { id := "dup", type := "note", payload := "p1",
           created_at := "2026-01-01T00:00:00.000Z",
           filename := "dup.json" } } : EvFile) ∈
      (saveEvidence cfgOn
        { id := some "other", type := "note", payload := "q",
          created_at := some "2026-01-01T00:00:02.000Z" }
        "u3" "t" 2 SaveFault.ok fsDup1).2.evidenceDir.getD [] :=
  evidence_c7.1 cfgOn
    { id := some "other", type := "note", payload := "q",
      created_at := some "2026-01-01T00:00:02.000Z" }
    "u3" "t" 2 SaveFault.ok fsDup1 "other"
    { name := "dup.json", isFile := true, statOk := true, mtimeMs := 0,
      content := some
        { id := "dup", type := "note", payload := "p1",
          created_at := "2026-01-01T00:00:00.000Z", filename := "dup.json" } }
    rfl (by decide) (by decide)

/-- An entry kept by the prune loop is kept as itself (paired with its
effective timestamp). -/
theorem keepEntry_fst (cfg : EvidenceConfig) (now : Int)
    (e : EvidenceFileEntry) (p : EvidenceFileEntry × Int)
    (h : keepEntry cfg now e = some p) : p.1 = e := by
  simp only [keepEntry] at h
  split at h
  · exact absurd h (by simp)
  · split at h
    · exact absurd h (by simp)
    · injection h with h
      rw [← h]

/-- The kept pairs project to exactly the entries the loop keeps, in order. -/
theorem kept_map_fst (cfg : EvidenceConfig) (now : Int)
    (entries : List EvidenceFileEntry) :
    (entries.filterMap (keepEntry cfg now)).map (·.1) =
      entries.filter (fun e => (keepEntry cfg now e).isSome) := by
  induction entries with
  | nil => rfl
  | cons e es ih =>
    rw [List.filterMap_cons, List.filter_cons]
    cases hk : keepEntry cfg now e with
    | none => simpa [hk] using ih
    | some p => simp [hk, keepEntry_fst cfg now e p hk, ih]

/-- The configuration of the count-rule scenario: `max_bundles = 2`. -/
def cfgScn : EvidenceConfig :=
  { enabled := true, max_age_days := some 90, max_bundles := some 2,
    auto_archive := false }

/-- First scenario bundle, created at T. -/
def bunScn1 : EvidenceBundle :=
  { id := some "bundle-1", type := "test", payload := "p1",
    created_at := some "2026-01-01T00:00:00.000Z" }

/-- Second scenario bundle, created at T + 1000 ms. -/
def bunScn2 : EvidenceBundle :=
  { id := some "bundle-2", type := "test", payload := "p2",
    created_at := some "2026-01-01T00:00:01.000Z" }

/-- Third scenario bundle, created at T + 2000 ms. -/
def bunScn3 : EvidenceBundle :=
  { id := some "bundle-3", type := "test", payload := "p3",
    created_at := some "2026-01-01T00:00:02.000Z" }

/-- The store after saving the three scenario bundles in order. -/
def fsScn3 : FsState :=
  (saveEvidence cfgScn bunScn3 "u3" "t" 2 SaveFault.ok
    (saveEvidence cfgScn bunScn2 "u2" "t" 1 SaveFault.ok
      (saveEvidence cfgScn bunScn1 "u1" "t" 0 SaveFault.ok fsEmpty).2).2).2

/-- The record persisted for `bunScn2`. -/
def recScn2 : EvidenceRecord :=
  { id := "bundle-2", type := "test", payload := "p2",
    created_at := "2026-01-01T00:00:01.000Z", filename := "bundle-2.json" }

/-- The record persisted for `bunScn3`. -/
def recScn3 : EvidenceRecord :=
  { id := "bundle-3", type := "test", payload := "p3",
    created_at := "2026-01-01T00:00:02.000Z", filename := "bundle-3.json" }

/-- C3: when the age-surviving entries outnumber `max_bundles`, the prune
marks for deletion exactly the entries beyond position `max_bundles` in the
stable descending sort by effective timestamp — every entry beyond that
position is deleted and none of the newest `max_bundles` is (for a directory
with distinct paths, as every real directory has); and concretely, saving
bundle-1, bundle-2, bundle-3 at strictly increasing `created_at` timestamps
and pruning with `max_bundles = 2` leaves `list()` returning exactly
`[bundle-3, bundle-2]` in that order. -/
theorem evidence_c3 :
    (∀ (cfg : EvidenceConfig) (now : Int)
        (entries : List EvidenceFileEntry) (m : Nat),
      cfg.max_bundles = some m →
      (entries.map (·.path)).Nodup →
      (entries.filterMap (keepEntry cfg now)).length > m →
      (∀ p ∈ (List.insertionSort byTimestampDesc
          (entries.filterMap (keepEntry cfg now))).drop m,
        p.1.path ∈ pruneToDelete cfg now entries) ∧
      (∀ p ∈ (List.insertionSort byTimestampDesc
          (entries.filterMap (keepEntry cfg now))).take m,
        p.1.path ∉ pruneToDelete cfg now entries)) ∧
    listEvidence cfgScn (pruneOnce cfgScn 1767225602000 fsScn3) =
      [recScn3, recScn2] := by
  constructor
  · intro cfg now entries m hmb hnd hlen
    have hperm :
        List.Perm
          (List.insertionSort byTimestampDesc (entries.filterMap (keepEntry cfg now)))
          (entries.filterMap (keepEntry cfg now)) :=
      List.perm_insertionSort _ _
    have hvict : pruneToDelete cfg now entries =
        (entries.filterMap fun e =>
          if (keepEntry cfg now e).isNone then some e.path else none) ++
        ((List.insertionSort byTimestampDesc
          (entries.filterMap (keepEntry cfg now))).drop m).map (·.1.path) := by
      simp only [pruneToDelete, hmb]
      rw [if_pos hlen]
    constructor
    · intro p hp
      rw [hvict]
      exact List.mem_append_right _ (List.mem_map_of_mem _ hp)
    · intro p hp hmem
      have hpsort : p ∈ List.insertionSort byTimestampDesc
          (entries.filterMap (keepEntry cfg now)) := List.mem_of_mem_take hp
      have hpkept : p ∈ entries.filterMap (keepEntry cfg now) :=
        hperm.mem_iff.mp hpsort
      have hknd :
          ((entries.filterMap (keepEntry cfg now)).map
            (fun q => q.1.path)).Nodup := by
        have hmm : (entries.filterMap (keepEntry cfg now)).map
            (fun q => q.1.path) =
            ((entries.filterMap (keepEntry cfg now)).map (·.1)).map
              (·.path) := by
          rw [List.map_map]
          rfl
        rw [hmm, kept_map_fst]
        exact ((List.filter_sublist entries).map _).nodup hnd
      have hsnd : ((List.insertionSort byTimestampDesc
          (entries.filterMap (keepEntry cfg now))).map
            (fun q => q.1.path)).Nodup :=
        ((hperm.map _).nodup_iff).mpr hknd
      rw [hvict] at hmem
      rcases List.mem_append.mp hmem with hbase | hcnt
      · obtain ⟨e, he, hee⟩ := List.mem_filterMap.mp hbase
        by_cases hk : (keepEntry cfg now e).isNone
        · rw [if_pos hk] at hee
          injection hee with hee
          obtain ⟨e', he', hke'⟩ := List.mem_filterMap.mp hpkept
          have hfst : e' = p.1 := by
            have := keepEntry_fst cfg now e' p hke'
            rw [this]
          have hp1mem : p.1 ∈ entries := hfst ▸ he'
          have heq : e = p.1 :=
            List.inj_on_of_nodup_map hnd he hp1mem hee
          rw [heq, ← hfst, hke'] at hk
          exact absurd hk (by simp)
        · rw [if_neg hk] at hee
          exact absurd hee (by simp)
      · obtain ⟨q, hq, hqe⟩ := List.mem_map.mp hcnt
        have hsplit : (List.insertionSort byTimestampDesc
            (entries.filterMap (keepEntry cfg now))).map (fun q => q.1.path) =
            ((List.insertionSort byTimestampDesc
              (entries.filterMap (keepEntry cfg now))).take m).map
                (fun q => q.1.path) ++
            ((List.insertionSort byTimestampDesc
              (entries.filterMap (keepEntry cfg now))).drop m).map
                (fun q => q.1.path) := by
          rw [← List.map_append, List.take_append_drop]
        rw [hsplit] at hsnd
        exact List.disjoint_of_nodup_append hsnd
          (List.mem_map_of_mem _ hp) (hqe ▸ List.mem_map_of_mem _ hq)
  · decide

/-- Witness for C3: in a two-entry directory with `max_bundles = 1`, the
older survivor (position beyond 1 in the descending sort) is marked for
deletion. -/
theorem evidence_c3_witness :
    "a.json" ∈
      pruneToDelete
        { enabled := true, max_age_days := some 90, max_bundles := some 1,
          auto_archive := false }
        1767225601000
        [{ path := "a.json", mtimeMs := 0,
           record := some
             { id := "a", type := "test", payload := "p",
               created_at := "2026-01-01T00:00:00.000Z",
               filename := "a.json" } },
         { path := "b.json", mtimeMs := 0,
           record := some
             { id := "b", type := "test", payload := "p",
               created_at := "2026-01-01T00:00:01.000Z",
               filename := "b.json" } }] :=
  (evidence_c3.1
    { enabled := true, max_age_days := some 90, max_bundles := some 1,
      auto_archive := false }
    1767225601000
    [{ path := "a.json", mtimeMs := 0,
       record := some
         { id := "a", type := "test", payload := "p",
           created_at := "2026-01-01T00:00:00.000Z", filename := "a.json" } },
     { path := "b.json", mtimeMs := 0,
       record := some
         { id := "b", type := "test", payload := "p",
           created_at := "2026-01-01T00:00:01.000Z", filename := "b.json" } }]
    1 rfl (by decide) (by decide)).1
    (⟨{ path := "a.json", mtimeMs := 0,
        record := some
          { id := "a", type := "test", payload := "p",
            created_at := "2026-01-01T00:00:00.000Z",
            filename := "a.json" } },
      (1767225600000 : Int)⟩ : EvidenceFileEntry × Int)
    (by decide)

end StoryForge
